import Mathlib

/-!
Shallow embedding of the Cylindrify addon (src/_init_.py) and proofs about
its arithmetic and state transitions.  Real numbers stand for the host's
floats; host-owned operations (mesh join, modifier application) that the
addon merely invokes are modelled as parameters or as bounding-box-level
effects, as documented on each definition.
-/

set_option maxHeartbeats 1000000

noncomputable section

open Real

/-- Model of a 3D vector from the host math library (mathutils.Vector),
with real numbers standing for the host's floats. -/
@[ext] structure Vec3 where
  x : ℝ
  y : ℝ
  z : ℝ

/-- Componentwise vector addition (Vector addition in the host library),
used when the helper _world_bbox_center_xy accumulates the eight
bounding-box corners. -/
def Vec3.add (a b : Vec3) : Vec3 := ⟨a.x + b.x, a.y + b.y, a.z + b.z⟩

/-- Model of a host mesh object at the point the addon manipulates it:
all rotations have already been applied into the mesh data, so the world
matrix is the translation by location composed with the per-axis scale,
and the local bound_box is the axis-aligned box from bmin to bmax. -/
@[ext] structure Obj where
  location : Vec3
  scale : Vec3
  bmin : Vec3
  bmax : Vec3

/-- Application of obj.matrix_world to a local point (matrix_world @
Vector(corner)) for the translation-and-scale world matrix of Obj. -/
def worldPoint (o : Obj) (c : Vec3) : Vec3 :=
  ⟨o.location.x + o.scale.x * c.x,
   o.location.y + o.scale.y * c.y,
   o.location.z + o.scale.z * c.z⟩

/-- Translation of _world_bbox: the eight corners of obj.bound_box mapped
to world space. -/
def world_bbox (o : Obj) : List Vec3 :=
  [worldPoint o ⟨o.bmin.x, o.bmin.y, o.bmin.z⟩,
   worldPoint o ⟨o.bmin.x, o.bmin.y, o.bmax.z⟩,
   worldPoint o ⟨o.bmin.x, o.bmax.y, o.bmin.z⟩,
   worldPoint o ⟨o.bmin.x, o.bmax.y, o.bmax.z⟩,
   worldPoint o ⟨o.bmax.x, o.bmin.y, o.bmin.z⟩,
   worldPoint o ⟨o.bmax.x, o.bmin.y, o.bmax.z⟩,
   worldPoint o ⟨o.bmax.x, o.bmax.y, o.bmin.z⟩,
   worldPoint o ⟨o.bmax.x, o.bmax.y, o.bmax.z⟩]

/-- Python's min over a list of floats; the empty list (never produced by
the addon, which only applies this to the eight bbox corners) is mapped
to 0. -/
def listMin : List ℝ → ℝ
  | [] => 0
  | [a] => a
  | a :: b :: t => min a (listMin (b :: t))

/-- Python's max over a list of floats; the empty list is mapped to 0. -/
def listMax : List ℝ → ℝ
  | [] => 0
  | [a] => a
  | a :: b :: t => max a (listMax (b :: t))

/-- Translation of _world_bbox_min_max_z: (min, max) of the z coordinates
of the world bounding box corners. -/
def world_bbox_min_max_z (o : Obj) : ℝ × ℝ :=
  (listMin ((world_bbox o).map Vec3.z), listMax ((world_bbox o).map Vec3.z))

/-- Translation of _world_bbox_center_xy: the eight world corners are
summed into an accumulator and divided by 8; the x and y components are
returned. -/
def world_bbox_center_xy (o : Obj) : ℝ × ℝ :=
  ((((world_bbox o).foldl Vec3.add ⟨0, 0, 0⟩).x) / 8,
   (((world_bbox o).foldl Vec3.add ⟨0, 0, 0⟩).y) / 8)

/-- Translation of _world_bbox_size: extent of the world bounding box
along each axis. -/
def world_bbox_size (o : Obj) : ℝ × ℝ × ℝ :=
  (listMax ((world_bbox o).map Vec3.x) - listMin ((world_bbox o).map Vec3.x),
   listMax ((world_bbox o).map Vec3.y) - listMin ((world_bbox o).map Vec3.y),
   listMax ((world_bbox o).map Vec3.z) - listMin ((world_bbox o).map Vec3.z))

/-- Translation of _move_by: add the given deltas to the object location. -/
def _move_by (o : Obj) (dx dy dz : ℝ) : Obj :=
  { o with location := ⟨o.location.x + dx, o.location.y + dy, o.location.z + dz⟩ }

/-- Model of Python's str.lower(): lowercase the string character by
character (kernel-reducible counterpart of String.toLower, which likewise
maps Char.toLower over the characters). -/
def pyLower (s : String) : String := String.mk (s.data.map Char.toLower)

/-- Translation of _to_meters.  none models Python's None; Python's
expression (unit or "m") treats both None and the empty string as a
missing unit and falls back to "m". -/
def _to_meters (value : ℝ) (unit : Option String) : ℝ :=
  let u := pyLower (match unit with
            | none => "m"
            | some s => if s = "" then "m" else s)
  if u = "mm" then value / 1000
  else if u = "cm" then value / 100
  else value

/-- Result value of a host operator execute method. -/
inductive OpResult where
  | FINISHED
  | CANCELLED
  deriving DecidableEq

/-- Translation of the CYLSVG_Props property group, including the two
object references it holds. -/
structure CYLSVG_Props where
  flat_obj : Option Obj
  cube_obj : Option Obj
  svg_orig_x : ℝ
  thk_value : ℝ
  thk_unit : String
  cyl_outer_r : ℝ
  cyl_inner_r : ℝ
  cyl_height : ℝ
  cyl_unit : String
  cyl_subdiv : ℝ
  preserve_apparent_width : Bool

/-- Cube object produced by primitive_cube_add(size=1.0, location=(0,0,0))
followed by the assignment cube.dimensions = (X, Y, Z): for the unit cube
(local bound_box from -0.5 to 0.5 on each axis) setting dimensions sets
the object scale to (X, Y, Z).  The SIMPLE subdivision modifier applied
afterwards only refines faces and leaves the bounding box unchanged. -/
def mkCube (X Y Z : ℝ) : Obj :=
  ⟨⟨0, 0, 0⟩, ⟨X, Y, Z⟩, ⟨-(1/2), -(1/2), -(1/2)⟩, ⟨1/2, 1/2, 1/2⟩⟩

/-- Translation of CYLSVG_OT_AddCubeFromCylinder.execute: convert the
three cylinder measurements to meters, reject inner >= outer with
CANCELLED, otherwise build the cube with X = circumference, Y = height,
Z = wall thickness, store it in cube_obj and return FINISHED. -/
def CYLSVG_OT_AddCubeFromCylinder_execute (p : CYLSVG_Props) :
    OpResult × CYLSVG_Props :=
  let outer := _to_meters p.cyl_outer_r (some p.cyl_unit)
  let inner := _to_meters p.cyl_inner_r (some p.cyl_unit)
  let height := _to_meters p.cyl_height (some p.cyl_unit)
  if inner ≥ outer then (OpResult.CANCELLED, p)
  else
    let X := 2 * Real.pi * outer
    let Y := height
    let Z := outer - inner
    let cube := mkCube X Y Z
    (OpResult.FINISHED, { p with cube_obj := some cube })

/-- Target arc length from CYLSVG_OT_PlaceSvgOnCubeTopJoin.execute:
the arc whose chord equals W_orig, L_target = 2R * asin(W_orig / (2R)). -/
def L_target (R W_orig : ℝ) : ℝ := 2 * R * Real.arcsin (W_orig / (2 * R))

/-- Apparent-width pre-scaling branch of
CYLSVG_OT_PlaceSvgOnCubeTopJoin.execute: when the flag is set and the
stored original width is positive, and the guards W_orig < 2R, R > 0 and
cur_X > 0 hold, multiply the flat object's X scale by L_target / cur_X;
otherwise leave the object untouched. -/
def preserveApparentWidthStep (p : CYLSVG_Props) (flat : Obj) : Obj :=
  if p.preserve_apparent_width ∧ p.svg_orig_x > 0 then
    let R := _to_meters p.cyl_outer_r (some p.cyl_unit)
    let W_orig := p.svg_orig_x
    let max_chord := 2 * R
    if W_orig < max_chord ∧ R > 0 then
      let L := L_target R W_orig
      let cur_X := (world_bbox_size flat).1
      if cur_X > 0 then
        { flat with scale := ⟨flat.scale.x * (L / cur_X), flat.scale.y, flat.scale.z⟩ }
      else flat
    else flat
  else flat

/-- XY alignment move of CYLSVG_OT_PlaceSvgOnCubeTopJoin.execute: shift
the flat object so the world bbox XY centers coincide. -/
def alignXYStep (cube flat : Obj) : Obj :=
  _move_by flat ((world_bbox_center_xy cube).1 - (world_bbox_center_xy flat).1)
    ((world_bbox_center_xy cube).2 - (world_bbox_center_xy flat).2) 0

/-- Sit-on-top move of CYLSVG_OT_PlaceSvgOnCubeTopJoin.execute: shift the
flat object in Z so its world bbox minimum sits at the cube's world bbox
maximum. -/
def sitOnTopStep (cube flat : Obj) : Obj :=
  _move_by flat 0 0 ((world_bbox_min_max_z cube).2 - (world_bbox_min_max_z flat).1)

/-- Translation of CYLSVG_OT_PlaceSvgOnCubeTopJoin.execute.  The host's
join operator (bpy.ops.object.join with the cube active, which merges the
flat mesh into the cube and leaves the merged object active) is a host
primitive, modelled here as the parameter hostJoin applied to the cube
and the moved flat object. -/
def CYLSVG_OT_PlaceSvgOnCubeTopJoin_execute (hostJoin : Obj → Obj → Obj)
    (p : CYLSVG_Props) : OpResult × CYLSVG_Props :=
  match p.flat_obj, p.cube_obj with
  | some flat, some cube =>
    let flat1 := preserveApparentWidthStep p flat
    let flat2 := sitOnTopStep cube (alignXYStep cube flat1)
    let joined := hostJoin cube flat2
    (OpResult.FINISHED, { p with flat_obj := none, cube_obj := some joined })
  | _, _ => (OpResult.CANCELLED, p)

/-- Concrete settings record exhibiting the expansion of the
apparent-width multiplier: outer radius 1 m, stored original width 1,
preservation flag on. -/
def pC3 : CYLSVG_Props :=
  { flat_obj := none, cube_obj := none, svg_orig_x := 1, thk_value := 0, thk_unit := "m",
    cyl_outer_r := 1, cyl_inner_r := 0, cyl_height := 1, cyl_unit := "m", cyl_subdiv := 1,
    preserve_apparent_width := true }

/-- Concrete flat object of world bbox X width 1 and X scale 1. -/
def flatC3 : Obj := ⟨⟨0, 0, 0⟩, ⟨1, 1, 1⟩, ⟨0, 0, 0⟩, ⟨1, 1, 1⟩⟩

/-- Concrete settings record used by the witnesses: outer radius 2 m,
inner radius 1 m, height 3 m, stored original width 1, flag on. -/
def pW : CYLSVG_Props :=
  { flat_obj := none, cube_obj := none, svg_orig_x := 1, thk_value := 0, thk_unit := "m",
    cyl_outer_r := 2, cyl_inner_r := 1, cyl_height := 3, cyl_unit := "m", cyl_subdiv := 1,
    preserve_apparent_width := true }

/-- Concrete flat object used by the witnesses. -/
def flatW : Obj := ⟨⟨0, 0, 0⟩, ⟨1, 1, 1⟩, ⟨0, 0, 0⟩, ⟨1, 1, 1⟩⟩

/-- Concrete cube object used by the witnesses. -/
def cubeW : Obj := ⟨⟨0, 0, 5⟩, ⟨2, 2, 2⟩, ⟨0, 0, 0⟩, ⟨1, 1, 1⟩⟩

/-- Witness settings record with both object references set. -/
def pJoin : CYLSVG_Props := { pW with flat_obj := some flatW, cube_obj := some cubeW }

/-- Witness settings record with the preservation flag off. -/
def pOff : CYLSVG_Props := { pJoin with preserve_apparent_width := false }

/-- Trivial host join model used by the witnesses: keep the active
(target) object. -/
def hostJoinW (dst src : Obj) : Obj := dst

/- ------------------------------------------------------------------ -/
/- Helper lemmas                                                      -/
/- ------------------------------------------------------------------ -/

lemma world_bbox_move (o : Obj) (dx dy dz : ℝ) :
    world_bbox (_move_by o dx dy dz) =
      (world_bbox o).map (fun v => ⟨v.x + dx, v.y + dy, v.z + dz⟩) := by
  simp only [world_bbox, _move_by, worldPoint, List.map, List.cons.injEq, Vec3.mk.injEq,
    and_true]
  repeat' apply And.intro
  all_goals ring

lemma listMin_map_add (d : ℝ) : ∀ xs : List ℝ, xs ≠ [] →
    listMin (xs.map (fun a => a + d)) = listMin xs + d := by
  intro xs
  induction xs with
  | nil => intro h; exact absurd rfl h
  | cons a t ih =>
    intro _
    cases t with
    | nil => simp [listMin]
    | cons b t2 =>
      have h2 : (b :: t2 : List ℝ) ≠ [] := by simp
      have ih2 := ih h2
      simp only [List.map, listMin] at ih2 ⊢
      rw [ih2, min_add_add_right]

lemma world_bbox_min_max_z_move_fst (o : Obj) (dx dy dz : ℝ) :
    (world_bbox_min_max_z (_move_by o dx dy dz)).1 =
      (world_bbox_min_max_z o).1 + dz := by
  have h1 := world_bbox_move o dx dy dz
  simp only [world_bbox_min_max_z, h1, List.map_map]
  have h2 : (Vec3.z ∘ fun v : Vec3 => (⟨v.x + dx, v.y + dy, v.z + dz⟩ : Vec3)) =
      (fun a : ℝ => a + dz) ∘ Vec3.z := rfl
  rw [h2, ← List.map_map]
  exact listMin_map_add dz _ (by simp [world_bbox])

lemma world_bbox_center_xy_move (o : Obj) (dx dy dz : ℝ) :
    world_bbox_center_xy (_move_by o dx dy dz) =
      ((world_bbox_center_xy o).1 + dx, (world_bbox_center_xy o).2 + dy) := by
  simp only [world_bbox_center_xy, world_bbox, worldPoint, _move_by, Vec3.add,
    List.foldl, Prod.mk.injEq]
  constructor <;> ring

lemma world_bbox_size_eq (o : Obj)
    (hx : 0 ≤ o.scale.x) (hy : 0 ≤ o.scale.y) (hz : 0 ≤ o.scale.z)
    (hbx : o.bmin.x ≤ o.bmax.x) (hby : o.bmin.y ≤ o.bmax.y) (hbz : o.bmin.z ≤ o.bmax.z) :
    world_bbox_size o =
      (o.scale.x * (o.bmax.x - o.bmin.x),
       o.scale.y * (o.bmax.y - o.bmin.y),
       o.scale.z * (o.bmax.z - o.bmin.z)) := by
  have hax : o.location.x + o.scale.x * o.bmin.x ≤ o.location.x + o.scale.x * o.bmax.x :=
    add_le_add_left (mul_le_mul_of_nonneg_left hbx hx) _
  have hay : o.location.y + o.scale.y * o.bmin.y ≤ o.location.y + o.scale.y * o.bmax.y :=
    add_le_add_left (mul_le_mul_of_nonneg_left hby hy) _
  have haz : o.location.z + o.scale.z * o.bmin.z ≤ o.location.z + o.scale.z * o.bmax.z :=
    add_le_add_left (mul_le_mul_of_nonneg_left hbz hz) _
  simp only [world_bbox_size, world_bbox, worldPoint, List.map, listMin, listMax,
    Prod.mk.injEq]
  refine ⟨?_, ?_, ?_⟩
  · simp only [max_self, min_self, max_eq_right hax, max_eq_left hax,
      min_eq_left hax, min_eq_right hax]
    ring
  · simp only [max_self, min_self, max_eq_right hay, max_eq_left hay,
      min_eq_left hay, min_eq_right hay]
    ring
  · simp only [max_self, min_self, max_eq_right haz, max_eq_left haz,
      min_eq_left haz, min_eq_right haz]
    ring

lemma chord_of_L_target (R W : ℝ) (hR : 0 < R) (hW : 0 < W) (hWR : W < 2 * R) :
    2 * R * Real.sin (L_target R W / (2 * R)) = W := by
  have h2R : (2 * R) ≠ 0 := ne_of_gt (by linarith)
  have hnn : (-1 : ℝ) ≤ W / (2 * R) :=
    le_trans (by norm_num) (le_of_lt (div_pos hW (by linarith)))
  rw [L_target, mul_div_cancel_left₀ _ h2R,
    Real.sin_arcsin hnn ((div_le_one (by linarith)).mpr (le_of_lt hWR))]
  field_simp

lemma arcsin_half : Real.arcsin (1 / 2) = Real.pi / 6 := by
  have h6 : Real.sin (Real.pi / 6) = 1 / 2 := Real.sin_pi_div_six
  rw [← h6, Real.arcsin_sin (by linarith [Real.pi_pos]) (by linarith [Real.pi_pos])]

lemma flatC3_size : (world_bbox_size flatC3).1 = 1 := by
  have h := world_bbox_size_eq flatC3 (by norm_num [flatC3]) (by norm_num [flatC3])
    (by norm_num [flatC3]) (by norm_num [flatC3]) (by norm_num [flatC3]) (by norm_num [flatC3])
  rw [h]
  norm_num [flatC3]

lemma C3_scale_value : (preserveApparentWidthStep pC3 flatC3).scale.x = Real.pi / 3 := by
  have hto : _to_meters pC3.cyl_outer_r (some pC3.cyl_unit) = 1 := by
    simp [pC3, _to_meters, pyLower]
  simp only [preserveApparentWidthStep, hto, flatC3_size, L_target]
  rw [if_pos (by simp [pC3]), if_pos (by norm_num [pC3]), if_pos (by norm_num)]
  simp only [pC3, flatC3]
  norm_num
  rw [arcsin_half]
  ring

lemma flatW_size : (world_bbox_size flatW).1 = 1 := by
  have h := world_bbox_size_eq flatW (by norm_num [flatW]) (by norm_num [flatW])
    (by norm_num [flatW]) (by norm_num [flatW]) (by norm_num [flatW]) (by norm_num [flatW])
  rw [h]
  norm_num [flatW]

lemma pW_outer : _to_meters pW.cyl_outer_r (some pW.cyl_unit) = 2 := by
  simp [pW, _to_meters, pyLower]

lemma pW_inner : _to_meters pW.cyl_inner_r (some pW.cyl_unit) = 1 := by
  simp [pW, _to_meters, pyLower]

lemma pW_height : _to_meters pW.cyl_height (some pW.cyl_unit) = 3 := by
  simp [pW, _to_meters, pyLower]

/- ------------------------------------------------------------------ -/
/- Claims                                                             -/
/- ------------------------------------------------------------------ -/

/-- Claim C1: when the unit-converted inner radius is strictly smaller
than the unit-converted outer radius, the add-cube-from-cylinder operator
finishes, stores a cube whose dimensions are X = 2*pi*outer
(circumference), Y = height (passthrough) and Z = outer - inner (wall
thickness), and that cube's world bounding box indeed has exactly those
extents. -/
theorem addCubeFromCylinder_maps_dimensions (p : CYLSVG_Props)
    (h : _to_meters p.cyl_inner_r (some p.cyl_unit) < _to_meters p.cyl_outer_r (some p.cyl_unit))
    (hi : 0 ≤ _to_meters p.cyl_inner_r (some p.cyl_unit))
    (hh : 0 ≤ _to_meters p.cyl_height (some p.cyl_unit)) :
    (CYLSVG_OT_AddCubeFromCylinder_execute p).1 = OpResult.FINISHED ∧
    (CYLSVG_OT_AddCubeFromCylinder_execute p).2.cube_obj =
      some (mkCube (2 * Real.pi * _to_meters p.cyl_outer_r (some p.cyl_unit))
        (_to_meters p.cyl_height (some p.cyl_unit))
        (_to_meters p.cyl_outer_r (some p.cyl_unit) - _to_meters p.cyl_inner_r (some p.cyl_unit))) ∧
    world_bbox_size (mkCube (2 * Real.pi * _to_meters p.cyl_outer_r (some p.cyl_unit))
        (_to_meters p.cyl_height (some p.cyl_unit))
        (_to_meters p.cyl_outer_r (some p.cyl_unit) - _to_meters p.cyl_inner_r (some p.cyl_unit))) =
      (2 * Real.pi * _to_meters p.cyl_outer_r (some p.cyl_unit),
       _to_meters p.cyl_height (some p.cyl_unit),
       _to_meters p.cyl_outer_r (some p.cyl_unit) - _to_meters p.cyl_inner_r (some p.cyl_unit)) := by
  have hou : 0 < _to_meters p.cyl_outer_r (some p.cyl_unit) := lt_of_le_of_lt hi h
  refine ⟨?_, ?_, ?_⟩
  · simp only [CYLSVG_OT_AddCubeFromCylinder_execute]
    rw [if_neg (not_le.mpr h)]
  · simp only [CYLSVG_OT_AddCubeFromCylinder_execute]
    rw [if_neg (not_le.mpr h)]
  · rw [world_bbox_size_eq]
    · simp only [mkCube]
      norm_num
    · simp only [mkCube]
      exact mul_nonneg (mul_nonneg (by norm_num) (le_of_lt Real.pi_pos)) (le_of_lt hou)
    · simp only [mkCube]
      exact hh
    · simp only [mkCube]
      linarith
    · simp only [mkCube]
      norm_num
    · simp only [mkCube]
      norm_num
    · simp only [mkCube]
      norm_num

/-- Witness for C1 at the concrete settings pW (inner 1 m < outer 2 m). -/
theorem addCubeFromCylinder_maps_dimensions_witness :
    _to_meters pW.cyl_inner_r (some pW.cyl_unit) < _to_meters pW.cyl_outer_r (some pW.cyl_unit) ∧
    (CYLSVG_OT_AddCubeFromCylinder_execute pW).1 = OpResult.FINISHED :=
  ⟨by rw [pW_inner, pW_outer]; norm_num,
   (addCubeFromCylinder_maps_dimensions pW (by rw [pW_inner, pW_outer]; norm_num)
      (by rw [pW_inner]; norm_num) (by rw [pW_height]; norm_num)).1⟩

/-- Claim C2: when the apparent-width branch fires (flag on, 0 < W,
W < 2R, R > 0, current bbox X width positive), the flat object's X scale
is multiplied by exactly 2R*asin(W/(2R)) / cur_X, and the arc length
L_target = 2R*asin(W/(2R)) satisfies the chord relation
2R*sin(L_target/(2R)) = W: after bending, the chord equals the original
flat width. -/
theorem placeJoin_apparent_width_scale (p : CYLSVG_Props) (flat : Obj)
    (hflag : p.preserve_apparent_width = true)
    (hW : 0 < p.svg_orig_x)
    (hWR : p.svg_orig_x < 2 * _to_meters p.cyl_outer_r (some p.cyl_unit))
    (hR : 0 < _to_meters p.cyl_outer_r (some p.cyl_unit))
    (hcur : 0 < (world_bbox_size flat).1) :
    (preserveApparentWidthStep p flat).scale.x =
      flat.scale.x *
        (2 * _to_meters p.cyl_outer_r (some p.cyl_unit) *
          Real.arcsin (p.svg_orig_x / (2 * _to_meters p.cyl_outer_r (some p.cyl_unit))) /
          (world_bbox_size flat).1) ∧
    2 * _to_meters p.cyl_outer_r (some p.cyl_unit) *
      Real.sin (L_target (_to_meters p.cyl_outer_r (some p.cyl_unit)) p.svg_orig_x /
        (2 * _to_meters p.cyl_outer_r (some p.cyl_unit))) = p.svg_orig_x := by
  constructor
  · simp only [preserveApparentWidthStep, hflag, hW, hWR, hR, hcur, L_target,
      if_pos, true_and, and_true, gt_iff_lt, if_true]
  · exact chord_of_L_target _ _ hR hW hWR

/-- Witness for C2 at pW (R = 2, W = 1) and the unit flat object. -/
theorem placeJoin_apparent_width_scale_witness :
    0 < (world_bbox_size flatW).1 ∧
    (preserveApparentWidthStep pW flatW).scale.x =
      flatW.scale.x *
        (2 * _to_meters pW.cyl_outer_r (some pW.cyl_unit) *
          Real.arcsin (pW.svg_orig_x / (2 * _to_meters pW.cyl_outer_r (some pW.cyl_unit))) /
          (world_bbox_size flatW).1) :=
  ⟨by rw [flatW_size]; norm_num,
   (placeJoin_apparent_width_scale pW flatW rfl (by norm_num [pW])
      (by rw [pW_outer]; norm_num [pW]) (by rw [pW_outer]; norm_num)
      (by rw [flatW_size]; norm_num)).1⟩

/-- Claim C3 counterexample: with outer radius 1 m and stored width 1
(so 0 < W < 2R and the current bbox X width equals W = 1), the multiplier
applied by the place-and-join operator is 2*asin(1/2) = pi/3 > 1, so the
new X scale exceeds the old one: the adjustment is not "at most 1". -/
theorem placeJoin_multiplier_not_le_one :
    ¬ ((preserveApparentWidthStep pC3 flatC3).scale.x ≤ flatC3.scale.x) := by
  rw [C3_scale_value]
  have h3 := Real.pi_gt_three
  simp only [flatC3]
  norm_num
  linarith

/-- Claim C3 amended: for every 0 < W < 2R with R > 0, the multiplier
2R*asin(W/(2R))/W (denominator taken as the current bbox X width equal
to W) is strictly greater than 1: the apparent-width adjustment is a
pre-expansion, not a pre-compression. -/
theorem placeJoin_multiplier_gt_one (R W : ℝ) (hW : 0 < W) (hWR : W < 2 * R) (hR : 0 < R) :
    1 < L_target R W / W := by
  have h2R : (0 : ℝ) < 2 * R := by linarith
  have hx0 : 0 < W / (2 * R) := div_pos hW h2R
  have hx1 : W / (2 * R) < 1 := (div_lt_one h2R).mpr hWR
  have hth : 0 < Real.arcsin (W / (2 * R)) := Real.arcsin_pos.mpr hx0
  have hsin : Real.sin (Real.arcsin (W / (2 * R))) = W / (2 * R) :=
    Real.sin_arcsin (by linarith) (le_of_lt hx1)
  have hlt : W / (2 * R) < Real.arcsin (W / (2 * R)) := by
    have hs := Real.sin_lt hth
    rw [hsin] at hs
    exact hs
  rw [lt_div_iff₀ hW, one_mul, L_target]
  calc W = 2 * R * (W / (2 * R)) := by field_simp
  _ < 2 * R * Real.arcsin (W / (2 * R)) := mul_lt_mul_of_pos_left hlt h2R

/-- Witness for the amended C3 at R = 1, W = 1. -/
theorem placeJoin_multiplier_gt_one_witness :
    (0 : ℝ) < 1 ∧ 1 < L_target 1 1 / 1 :=
  ⟨by norm_num, placeJoin_multiplier_gt_one 1 1 (by norm_num) (by norm_num) (by norm_num)⟩

/-- Claim C4: _to_meters returns v/1000 when the lowercased unit is "mm",
v/100 when it is "cm", and v unchanged when it is "m". -/
theorem to_meters_unit_conversion (v : ℝ) (u : String) :
    (pyLower u = "mm" → _to_meters v (some u) = v / 1000) ∧
    (pyLower u = "cm" → _to_meters v (some u) = v / 100) ∧
    (pyLower u = "m" → _to_meters v (some u) = v) := by
  refine ⟨?_, ?_, ?_⟩ <;> intro h <;> by_cases hu : u = ""
  · rw [hu] at h; exact absurd h (by decide)
  · simp [_to_meters, hu, h]
  · rw [hu] at h; exact absurd h (by decide)
  · simp [_to_meters, hu, h]
  · rw [hu] at h; exact absurd h (by decide)
  · simp [_to_meters, hu, h]

/-- Witness for C4 at v = 3 and the mixed-case unit "MM". -/
theorem to_meters_unit_conversion_witness :
    pyLower "MM" = "mm" ∧ _to_meters 3 (some "MM") = 3 / 1000 :=
  ⟨by decide, (to_meters_unit_conversion 3 "MM").1 (by decide)⟩

/-- Claim C5: with both references set, the place-and-join operator moves
the flat object so that, just before the join, its world bbox XY center
coincides with the cube's and its world bbox minimum Z equals the cube's
world bbox maximum Z; the operator then finishes with exactly that moved
object joined into the cube. -/
theorem placeJoin_centers_flat_on_cube_top (hostJoin : Obj → Obj → Obj)
    (p : CYLSVG_Props) (flat cube : Obj)
    (hf : p.flat_obj = some flat) (hc : p.cube_obj = some cube) :
    world_bbox_center_xy (sitOnTopStep cube (alignXYStep cube (preserveApparentWidthStep p flat))) =
      world_bbox_center_xy cube ∧
    (world_bbox_min_max_z (sitOnTopStep cube (alignXYStep cube (preserveApparentWidthStep p flat)))).1 =
      (world_bbox_min_max_z cube).2 ∧
    CYLSVG_OT_PlaceSvgOnCubeTopJoin_execute hostJoin p =
      (OpResult.FINISHED, { p with flat_obj := none, cube_obj := some (hostJoin cube (sitOnTopStep cube (alignXYStep cube (preserveApparentWidthStep p flat)))) }) := by
  refine ⟨?_, ?_, ?_⟩
  · simp only [sitOnTopStep, alignXYStep]
    rw [world_bbox_center_xy_move, world_bbox_center_xy_move]
    have h1 : world_bbox_center_xy cube =
        ((world_bbox_center_xy cube).1, (world_bbox_center_xy cube).2) := rfl
    rw [h1]
    simp only [Prod.mk.injEq]
    constructor <;> ring
  · simp only [sitOnTopStep]
    rw [world_bbox_min_max_z_move_fst]
    ring
  · simp only [CYLSVG_OT_PlaceSvgOnCubeTopJoin_execute, hf, hc]

/-- Witness for C5 at the concrete scene pJoin. -/
theorem placeJoin_centers_flat_on_cube_top_witness :
    pJoin.flat_obj = some flatW ∧ pJoin.cube_obj = some cubeW ∧
    world_bbox_center_xy (sitOnTopStep cubeW (alignXYStep cubeW (preserveApparentWidthStep pJoin flatW))) =
      world_bbox_center_xy cubeW :=
  ⟨rfl, rfl,
   (placeJoin_centers_flat_on_cube_top hostJoinW pJoin flatW cubeW rfl rfl).1⟩

/-- Claim C6: after a successful run of the place-and-join operator, the
flat-mesh reference is cleared to None and the cube reference points to
the joined result object. -/
theorem placeJoin_clears_flat_sets_cube (hostJoin : Obj → Obj → Obj)
    (p : CYLSVG_Props) (flat cube : Obj)
    (hf : p.flat_obj = some flat) (hc : p.cube_obj = some cube) :
    (CYLSVG_OT_PlaceSvgOnCubeTopJoin_execute hostJoin p).1 = OpResult.FINISHED ∧
    (CYLSVG_OT_PlaceSvgOnCubeTopJoin_execute hostJoin p).2.flat_obj = none ∧
    (CYLSVG_OT_PlaceSvgOnCubeTopJoin_execute hostJoin p).2.cube_obj =
      some (hostJoin cube (sitOnTopStep cube (alignXYStep cube (preserveApparentWidthStep p flat)))) := by
  simp [CYLSVG_OT_PlaceSvgOnCubeTopJoin_execute, hf, hc]

/-- Witness for C6 at the concrete scene pJoin. -/
theorem placeJoin_clears_flat_sets_cube_witness :
    pJoin.flat_obj = some flatW ∧
    (CYLSVG_OT_PlaceSvgOnCubeTopJoin_execute hostJoinW pJoin).2.flat_obj = none :=
  ⟨rfl, (placeJoin_clears_flat_sets_cube hostJoinW pJoin flatW cubeW rfl rfl).2.1⟩

/-- Claim C7: when the preservation flag is false (or the stored original
width is not positive), the flat object is only translated: its scale and
local bounding box are unchanged just before the join; and the operator
modifies no settings field besides the two object references. -/
theorem placeJoin_flag_off_translation_only (hostJoin : Obj → Obj → Obj)
    (p : CYLSVG_Props) (flat cube : Obj)
    (hf : p.flat_obj = some flat) (hc : p.cube_obj = some cube)
    (hoff : p.preserve_apparent_width = false ∨ ¬ (0 < p.svg_orig_x)) :
    (sitOnTopStep cube (alignXYStep cube (preserveApparentWidthStep p flat))).scale = flat.scale ∧
    (sitOnTopStep cube (alignXYStep cube (preserveApparentWidthStep p flat))).bmin = flat.bmin ∧
    (sitOnTopStep cube (alignXYStep cube (preserveApparentWidthStep p flat))).bmax = flat.bmax ∧
    (CYLSVG_OT_PlaceSvgOnCubeTopJoin_execute hostJoin p).2.svg_orig_x = p.svg_orig_x ∧
    (CYLSVG_OT_PlaceSvgOnCubeTopJoin_execute hostJoin p).2.thk_value = p.thk_value ∧
    (CYLSVG_OT_PlaceSvgOnCubeTopJoin_execute hostJoin p).2.thk_unit = p.thk_unit ∧
    (CYLSVG_OT_PlaceSvgOnCubeTopJoin_execute hostJoin p).2.cyl_outer_r = p.cyl_outer_r ∧
    (CYLSVG_OT_PlaceSvgOnCubeTopJoin_execute hostJoin p).2.cyl_inner_r = p.cyl_inner_r ∧
    (CYLSVG_OT_PlaceSvgOnCubeTopJoin_execute hostJoin p).2.cyl_height = p.cyl_height ∧
    (CYLSVG_OT_PlaceSvgOnCubeTopJoin_execute hostJoin p).2.cyl_unit = p.cyl_unit ∧
    (CYLSVG_OT_PlaceSvgOnCubeTopJoin_execute hostJoin p).2.cyl_subdiv = p.cyl_subdiv ∧
    (CYLSVG_OT_PlaceSvgOnCubeTopJoin_execute hostJoin p).2.preserve_apparent_width =
      p.preserve_apparent_width := by
  have hstep : preserveApparentWidthStep p flat = flat := by
    rcases hoff with h | h
    · simp [preserveApparentWidthStep, h]
    · simp [preserveApparentWidthStep, h]
  rw [hstep]
  refine ⟨rfl, rfl, rfl, ?_, ?_, ?_, ?_, ?_, ?_, ?_, ?_, ?_⟩ <;>
    simp [CYLSVG_OT_PlaceSvgOnCubeTopJoin_execute, hf, hc]

/-- Witness for C7 at the concrete scene pOff with the flag off. -/
theorem placeJoin_flag_off_translation_only_witness :
    pOff.preserve_apparent_width = false ∧
    (sitOnTopStep cubeW (alignXYStep cubeW (preserveApparentWidthStep pOff flatW))).scale =
      flatW.scale :=
  ⟨rfl, (placeJoin_flag_off_translation_only hostJoinW pOff flatW cubeW rfl rfl (Or.inl rfl)).1⟩

/-- Claim C8: the add-cube-from-cylinder operator returns CANCELLED with
the settings record unchanged exactly when the unit-converted inner
radius is at least the unit-converted outer radius; otherwise it returns
FINISHED and the only change is the new cube stored in cube_obj. -/
theorem addCubeFromCylinder_cancel_iff (p : CYLSVG_Props) :
    ((CYLSVG_OT_AddCubeFromCylinder_execute p).1 = OpResult.CANCELLED ↔
      _to_meters p.cyl_inner_r (some p.cyl_unit) ≥ _to_meters p.cyl_outer_r (some p.cyl_unit)) ∧
    (_to_meters p.cyl_inner_r (some p.cyl_unit) ≥ _to_meters p.cyl_outer_r (some p.cyl_unit) →
      (CYLSVG_OT_AddCubeFromCylinder_execute p).2 = p) ∧
    (_to_meters p.cyl_inner_r (some p.cyl_unit) < _to_meters p.cyl_outer_r (some p.cyl_unit) →
      (CYLSVG_OT_AddCubeFromCylinder_execute p).1 = OpResult.FINISHED ∧
      (CYLSVG_OT_AddCubeFromCylinder_execute p).2 =
        { p with cube_obj := some (mkCube (2 * Real.pi * _to_meters p.cyl_outer_r (some p.cyl_unit)) (_to_meters p.cyl_height (some p.cyl_unit)) (_to_meters p.cyl_outer_r (some p.cyl_unit) - _to_meters p.cyl_inner_r (some p.cyl_unit))) }) := by
  by_cases hc : _to_meters p.cyl_inner_r (some p.cyl_unit) ≥ _to_meters p.cyl_outer_r (some p.cyl_unit)
  · refine ⟨?_, fun _ => ?_, fun hlt => absurd hc (not_le.mpr hlt)⟩
    · simp only [CYLSVG_OT_AddCubeFromCylinder_execute, if_pos hc]
      simp [hc]
    · simp only [CYLSVG_OT_AddCubeFromCylinder_execute, if_pos hc]
  · refine ⟨?_, fun hge => absurd hge hc, fun _ => ⟨?_, ?_⟩⟩
    · simp only [CYLSVG_OT_AddCubeFromCylinder_execute, if_neg hc]
      exact iff_of_false (by simp) hc
    · simp only [CYLSVG_OT_AddCubeFromCylinder_execute, if_neg hc]
    · simp only [CYLSVG_OT_AddCubeFromCylinder_execute, if_neg hc]

/-- Witness for C8 at the concrete settings pW (inner 1 m < outer 2 m,
so the run is not cancelled). -/
theorem addCubeFromCylinder_cancel_iff_witness :
    _to_meters pW.cyl_inner_r (some pW.cyl_unit) < _to_meters pW.cyl_outer_r (some pW.cyl_unit) ∧
    (CYLSVG_OT_AddCubeFromCylinder_execute pW).1 = OpResult.FINISHED :=
  ⟨by rw [pW_inner, pW_outer]; norm_num,
   ((addCubeFromCylinder_cancel_iff pW).2.2 (by rw [pW_inner, pW_outer]; norm_num)).1⟩

/-- Claim C9: under the guards of the apparent-width branch (0 < W,
W < 2R, R > 0) the asin argument W/(2R) lies in the interval from 0
(inclusive) to 1 (exclusive), and whenever the current bbox X width is
not strictly positive the branch performs no division and leaves the
object untouched. -/
theorem placeJoin_asin_arg_safe (p : CYLSVG_Props)
    (hW : 0 < p.svg_orig_x)
    (hWR : p.svg_orig_x < 2 * _to_meters p.cyl_outer_r (some p.cyl_unit))
    (hR : 0 < _to_meters p.cyl_outer_r (some p.cyl_unit)) :
    0 ≤ p.svg_orig_x / (2 * _to_meters p.cyl_outer_r (some p.cyl_unit)) ∧
    p.svg_orig_x / (2 * _to_meters p.cyl_outer_r (some p.cyl_unit)) < 1 ∧
    ∀ flat : Obj, ¬ (0 < (world_bbox_size flat).1) →
      preserveApparentWidthStep p flat = flat := by
  refine ⟨div_nonneg (le_of_lt hW) (by linarith), (div_lt_one (by linarith)).mpr hWR, ?_⟩
  intro flat hcur
  simp only [preserveApparentWidthStep, gt_iff_lt]
  rw [if_neg hcur]
  split_ifs <;> rfl

/-- Witness for C9 at the concrete settings pW (W = 1, R = 2). -/
theorem placeJoin_asin_arg_safe_witness :
    0 < pW.svg_orig_x ∧
    0 ≤ pW.svg_orig_x / (2 * _to_meters pW.cyl_outer_r (some pW.cyl_unit)) :=
  ⟨by norm_num [pW],
   (placeJoin_asin_arg_safe pW (by norm_num [pW]) (by rw [pW_outer]; norm_num [pW])
      (by rw [pW_outer]; norm_num)).1⟩

/-- Claim C10: _to_meters is total and case-insensitive: None, the empty
string and any unit whose lowercase form is neither "mm" nor "cm" leave
the value unchanged, and two units with the same lowercase form convert
identically. -/
theorem to_meters_total_case_insensitive :
    (∀ v : ℝ, _to_meters v none = v) ∧
    (∀ v : ℝ, _to_meters v (some "") = v) ∧
    (∀ (v : ℝ) (u : String), pyLower u ≠ "mm" → pyLower u ≠ "cm" →
      _to_meters v (some u) = v) ∧
    (∀ (v : ℝ) (u₁ u₂ : String), pyLower u₁ = pyLower u₂ →
      _to_meters v (some u₁) = _to_meters v (some u₂)) := by
  refine ⟨fun v => by simp [_to_meters, pyLower], fun v => by simp [_to_meters, pyLower], ?_, ?_⟩
  · intro v u h1 h2
    by_cases hu : u = ""
    · simp [_to_meters, hu, pyLower]
    · simp only [_to_meters, hu, if_neg, ite_false]
      rw [if_neg h1, if_neg h2]
  · intro v u₁ u₂ h
    have hempty : ∀ w : ℝ, _to_meters w (some "") = w := fun w => by
      simp [_to_meters, pyLower]
    by_cases hu1 : u₁ = "" <;> by_cases hu2 : u₂ = ""
    · rw [hu1, hu2]
    · rw [hu1] at h ⊢
      have hp : pyLower u₂ = "" := h.symm.trans (by decide)
      rw [hempty]
      simp [_to_meters, hu2, hp]
    · rw [hu2] at h ⊢
      have hp : pyLower u₁ = "" := h.trans (by decide)
      rw [hempty]
      simp [_to_meters, hu1, hp]
    · simp only [_to_meters, hu1, hu2, ite_false, if_neg, h]

/-- Witness for C10: the mixed-case unit "Cm" converts like "cm". -/
theorem to_meters_total_case_insensitive_witness :
    pyLower "Cm" = pyLower "cm" ∧ _to_meters 7 (some "Cm") = _to_meters 7 (some "cm") :=
  ⟨by decide, to_meters_total_case_insensitive.2.2.2 7 "Cm" "cm" (by decide)⟩

end
